import Mathlib

/-
  Verification development for the AI-Interview backend
  (src/backend/server.py).

  Shallow embedding conventions:
  - MongoDB collections become Lean lists of records; `find_one` with a
    descending sort key becomes `findOneSortedDesc`, `find_one` without a
    sort becomes `List.find?` (natural order = insertion order, since new
    documents are appended), and `update_one` becomes `updateFirst`.
  - The external LLM call is modelled by an `Option String` parameter:
    `none` means the call raised (the `except` branch runs), `some raw`
    means it returned the text `raw`.  The prompt strings sent to the LLM
    do not influence any return value and are elided.
  - `uuid.uuid4()` is modelled by an explicit supply `ids : Nat → String`;
    the k-th uuid drawn for a question gets `ids k`.  The uuid drawn for
    the LLM session identifier never reaches any returned value and is
    elided.
  - `datetime.utcnow()` values are abstract `Nat` parameters.
  - Python string helpers are re-implemented structurally on `List Char`
    so that every definition reduces in the kernel:
    `split('\n')` = `splitNl`, `strip()` = `pyStrip`,
    `startswith('#')` = `startsWithHash`, `endswith('.pdf')` = `endsWithPdf`.
-/

namespace AIInterview

/-- Python `str.strip()` whitespace set (ASCII part). -/
def isPyWhitespace (c : Char) : Bool :=
  c = ' ' || c = '\t' || c = '\n' || c = '\r' || c = '\x0b' || c = '\x0c'

/-- Python `s.strip()`: drop leading and trailing whitespace. -/
def pyStrip (s : String) : String :=
  String.mk (((s.data.dropWhile isPyWhitespace).reverse.dropWhile isPyWhitespace).reverse)

/-- Helper for `splitNl`: accumulate the current chunk (reversed). -/
def splitNlAux : List Char → List Char → List String
  | [], acc => [String.mk acc.reverse]
  | c :: cs, acc =>
      if c = '\n' then String.mk acc.reverse :: splitNlAux cs []
      else splitNlAux cs (c :: acc)

/-- Python `s.split('\n')` (keeps empty chunks, as Python does). -/
def splitNl (s : String) : List String :=
  splitNlAux s.data []

/-- Python `s.startswith('#')`. -/
def startsWithHash (s : String) : Bool :=
  match s.data with
  | [] => false
  | c :: _ => c = '#'

/-- Python `s.endswith('.pdf')`. -/
def endsWithPdf (s : String) : Bool :=
  match s.data.reverse with
  | 'f' :: 'd' :: 'p' :: '.' :: _ => true
  | _ => false

/-- A generated interview question (the dicts built in
`generate_interview_questions`): keys `id`, `question`, `type`, `topic`.
The `type` key is called `qtype` here because `type` is reserved. -/
structure Question where
  id : String
  question : String
  qtype : String
  topic : String
deriving DecidableEq, Repr

/-- A submitted response (the `response_doc` dict of `submit_response`). -/
structure Response where
  question_id : String
  answer : String
  submitted_at : Nat
deriving DecidableEq, Repr

/-- An interview document (`interview_doc` in `start_interview`, plus the
`completed_at` field that `submit_response` sets on completion). -/
structure Interview where
  id : String
  user_id : String
  job_role : String
  experience_level : String
  interview_type : String
  status : String
  questions : List Question
  responses : List Response
  feedback : Option String
  created_at : Nat
  completed_at : Option Nat
deriving DecidableEq, Repr

/-- A resume document (`resume_doc` in `upload_resume`). -/
structure ResumeDoc where
  id : String
  user_id : String
  filename : String
  text_content : String
  uploaded_at : Nat
deriving DecidableEq, Repr

/-- A user document (`user_doc` in `register`). -/
structure UserDoc where
  id : String
  email : String
  name : String
  password : String
  created_at : Nat
deriving DecidableEq, Repr

/-- The Mongo database: collections `users`, `resumes`, `interviews`. -/
structure DB where
  users : List UserDoc
  resumes : List ResumeDoc
  interviews : List Interview
deriving DecidableEq, Repr

/-- Parsing loop of `generate_interview_questions`:
`for i, q in enumerate(question_texts[:7]): if q.strip() and not
q.startswith('#'): questions.append(...)`.
`i` is the index in the (truncated) line list, `k` counts the questions
appended so far (the k-th question draws the k-th fresh uuid). -/
def parseLoop (ids : Nat → String) : List String → Nat → Nat → List Question
  | [], _, _ => []
  | q :: rest, i, k =>
      if pyStrip q != "" && !startsWithHash q then
        { id := ids k, question := pyStrip q,
          qtype := if i % 2 = 0 then "technical" else "behavioral",
          topic := "general" } :: parseLoop ids rest (i + 1) (k + 1)
      else
        parseLoop ids rest (i + 1) k

/-- `questions = []` / `question_texts = response.split('\n')` /
loop over `question_texts[:7]`. -/
def parseQuestions (raw : String) (ids : Nat → String) : List Question :=
  parseLoop ids ((splitNl raw).take 7) 0 0

/-- The `except`-branch fallback questions of `generate_interview_questions`
(three questions, texts parameterized by the job role only). -/
def fallbackQuestionsError (job_role : String) (ids : Nat → String) : List Question :=
  [ { id := ids 0, question := "Tell me about your experience in " ++ job_role ++ ".",
      qtype := "technical", topic := "experience" },
    { id := ids 1, question := "Walk me through your most challenging project.",
      qtype := "behavioral", topic := "projects" },
    { id := ids 2, question := "How do you approach problem-solving?",
      qtype := "technical", topic := "problem-solving" } ]

/-- The in-`try` fallback of `generate_interview_questions`, used when
parsing yields fewer than 3 questions (five questions). -/
def fallbackQuestionsParse (job_role : String) (ids : Nat → String) : List Question :=
  [ { id := ids 0, question := "Tell me about your experience with " ++ job_role ++ " technologies.",
      qtype := "technical", topic := "experience" },
    { id := ids 1, question := "Walk me through a challenging project you\x27ve worked on.",
      qtype := "behavioral", topic := "projects" },
    { id := ids 2, question := "How do you stay updated with the latest trends in " ++ job_role ++ "?",
      qtype := "behavioral", topic := "learning" },
    { id := ids 3, question := "Describe a time when you had to solve a complex technical problem.",
      qtype := "technical", topic := "problem-solving" },
    { id := ids 4, question := "What interests you most about working as a " ++ job_role ++ "?",
      qtype := "behavioral", topic := "motivation" } ]

/-- `generate_interview_questions(resume_text, job_role, experience_level)`.
`llm = none` models the external call raising; `llm = some raw` models it
returning `raw`.  `resume_text` and `experience_level` only flow into the
prompt, hence do not affect the result.  In the `some` branch the parse
loop draws `(parseQuestions raw ids).length` uuids before the `< 3`
fallback draws its own, so that fallback's supply is offset. -/
def generate_interview_questions (resume_text job_role experience_level : String)
    (llm : Option String) (ids : Nat → String) : List Question :=
  match llm with
  | none => fallbackQuestionsError job_role ids
  | some response =>
      let questions := parseQuestions response ids
      if questions.length < 3 then
        fallbackQuestionsParse job_role (fun n => ids (questions.length + n))
      else
        questions

/-- The `except`-branch fallback string of `generate_feedback`. -/
def fallbackFeedback : String :=
  "Thank you for completing the interview. Your responses have been recorded and our team will review them shortly."

/-- `generate_feedback(questions, responses, job_role)`: returns the LLM
text verbatim, or the fixed fallback string when the call raises.  The
transcript (positionally zipped Q/A pairs) only flows into the prompt. -/
def generate_feedback (questions : List Question) (responses : List Response)
    (job_role : String) (llm : Option String) : String :=
  match llm with
  | some text => text
  | none => fallbackFeedback

/-- Error taxonomy of the HTTP handlers (`HTTPException` status/detail
pairs).  `lookupFailure` stands for the crash the code would hit if the
re-read `find_one` in `submit_response` returned no document. -/
inductive ApiError where
  | duplicateUser
  | invalidCredentials
  | authenticationFailed
  | unsupportedFormat
  | missingResume
  | noActiveInterview
  | notFound
  | lookupFailure
deriving DecidableEq, Repr

/-- Scanning model of `find_one(filter, sort=[(key, -1)])`: among the
documents matching `p`, keep the one with the largest `key` (first seen
wins on ties; Mongo leaves tie order unspecified). -/
def pickLatest (p : α → Bool) (key : α → Nat) : Option α → List α → Option α
  | best, [] => best
  | best, x :: xs =>
      if p x then
        match best with
        | none => pickLatest p key (some x) xs
        | some b =>
            if key b < key x then pickLatest p key (some x) xs
            else pickLatest p key (some b) xs
      else pickLatest p key best xs

/-- `find_one(filter, sort=[(key, -1)])`. -/
def findOneSortedDesc (p : α → Bool) (key : α → Nat) (l : List α) : Option α :=
  pickLatest p key none l

/-- `update_one(filter, update)`: rewrite the first matching document. -/
def updateFirst (p : α → Bool) (f : α → α) : List α → List α
  | [] => []
  | x :: xs => if p x then f x :: xs else x :: updateFirst p f xs

/-- The filter of `submit_response`'s first `find_one`:
`{"user_id": user_id, "status": "in_progress"}`. -/
def openFor (user_id : String) (iv : Interview) : Bool :=
  iv.user_id == user_id && iv.status == "in_progress"

/-- Result type of `submit_response` (the JSON bodies
`{"completed": True, "feedback": ...}` and
`{"completed": False, "next_question": ...}`). -/
inductive SubmitResult where
  | completed (feedback : String)
  | recorded (next_question : Nat)
deriving DecidableEq, Repr

/-- Result type of `start_interview` (`interview_id`, `questions`,
`total_questions`). -/
structure StartResult where
  interview_id : String
  questions : List Question
  total_questions : Nat
deriving DecidableEq, Repr

/-- `upload_resume`: reject non-`.pdf` filenames, append the resume
document, return the text preview.  `text_content` is the text the
external PDF extractor produced. -/
def upload_resume (db : DB) (user_id filename text_content resume_id : String)
    (now : Nat) : Except ApiError (DB × String) :=
  if !endsWithPdf filename then Except.error ApiError.unsupportedFormat
  else
    let resume_doc : ResumeDoc :=
      { id := resume_id, user_id := user_id, filename := filename,
        text_content := text_content, uploaded_at := now }
    let preview :=
      if text_content.data.length > 200 then String.mk (text_content.data.take 200) ++ "..."
      else text_content
    Except.ok ({ db with resumes := db.resumes ++ [resume_doc] }, preview)

/-- The `interview_doc` literal created by `start_interview`. -/
def newInterview (interview_id user_id job_role experience_level interview_type : String)
    (questions : List Question) (now : Nat) : Interview :=
  { id := interview_id, user_id := user_id, job_role := job_role,
    experience_level := experience_level, interview_type := interview_type,
    status := "in_progress", questions := questions, responses := [],
    feedback := none, created_at := now, completed_at := none }

/-- `start_interview`: latest resume of the caller (400 if none), generate
questions, insert a fresh in-progress interview, return the questions. -/
def start_interview (db : DB) (user_id job_role experience_level interview_type : String)
    (llm : Option String) (ids : Nat → String) (interview_id : String) (now : Nat) :
    Except ApiError (DB × StartResult) :=
  match findOneSortedDesc (fun r => r.user_id == user_id) (fun r => r.uploaded_at) db.resumes with
  | none => Except.error ApiError.missingResume
  | some resume =>
      let questions :=
        generate_interview_questions resume.text_content job_role experience_level llm ids
      let interview_doc :=
        newInterview interview_id user_id job_role experience_level interview_type questions now
      Except.ok ({ db with interviews := db.interviews ++ [interview_doc] },
        { interview_id := interview_id, questions := questions,
          total_questions := questions.length })

/-- `submit_response`: find the caller's most recently created in-progress
interview (404 if none), push the response, re-read the interview, and if
`len(responses) >= len(questions)` generate feedback and set
status/feedback/completed_at in one update. -/
def submit_response (db : DB) (user_id question_id answer : String)
    (llm : Option String) (t₁ t₂ : Nat) : Except ApiError (DB × SubmitResult) :=
  match findOneSortedDesc (openFor user_id) (fun iv => iv.created_at) db.interviews with
  | none => Except.error ApiError.noActiveInterview
  | some interview =>
      let response_doc : Response :=
        { question_id := question_id, answer := answer, submitted_at := t₁ }
      let interviews1 := updateFirst (fun iv => iv.id == interview.id)
        (fun iv => { iv with responses := iv.responses ++ [response_doc] }) db.interviews
      match interviews1.find? (fun iv => iv.id == interview.id) with
      | none => Except.error ApiError.lookupFailure
      | some updated =>
          if updated.questions.length ≤ updated.responses.length then
            let feedback :=
              generate_feedback updated.questions updated.responses updated.job_role llm
            let interviews2 := updateFirst (fun iv => iv.id == interview.id)
              (fun iv =>
                { iv with
                  status := "completed",
                  feedback := some feedback,
                  completed_at := some t₂ }) interviews1
            Except.ok ({ db with interviews := interviews2 }, SubmitResult.completed feedback)
          else
            Except.ok ({ db with interviews := interviews1 },
              SubmitResult.recorded updated.responses.length)

/-- JWT payload: the `{"sub": ..., "exp": ...}` dict. -/
structure TokenPayload where
  sub : Option String
  exp : Nat
deriving DecidableEq, Repr

/-- `create_access_token(data, expires_delta)` with `data = {"sub": sub}`:
expiry is `now + delta` (minutes), defaulting to 15 minutes.  The JWT
encoder is an abstract parameter `enc` into an opaque token type. -/
def create_access_token {τ : Type} (enc : TokenPayload → τ) (sub : Option String)
    (now : Nat) (expires_delta : Option Nat) : τ :=
  enc { sub := sub, exp := now + expires_delta.getD 15 }

/-- `get_current_user`: decode the bearer token (`none` models any
`PyJWTError`, including bad signature and expiry), then require the "sub"
claim. -/
def get_current_user {τ : Type} (dec : τ → Option TokenPayload) (token : τ) :
    Except ApiError String :=
  match dec token with
  | none => Except.error ApiError.authenticationFailed
  | some payload =>
      match payload.sub with
      | none => Except.error ApiError.authenticationFailed
      | some user_id => Except.ok user_id

/-- `register`: reject duplicate emails, insert the user, issue a token
with `sub = user_id` and a 1-day (1440-minute) expiry.  Returns the token
and the new user id. -/
def register {τ : Type} (db : DB) (email password name : String)
    (new_id hashed_password : String) (now : Nat) (enc : TokenPayload → τ) :
    Except ApiError (DB × τ × String) :=
  if db.users.any (fun u => u.email == email) then Except.error ApiError.duplicateUser
  else
    let user_doc : UserDoc :=
      { id := new_id, email := email, name := name, password := hashed_password,
        created_at := now }
    let access_token := create_access_token enc (some new_id) now (some 1440)
    Except.ok ({ db with users := db.users ++ [user_doc] }, access_token, new_id)

/-- Claim C3's parsing policy, taken from the claim's words: every
non-empty line that does not start with a heading marker becomes a
Question, category tags alternate technical/behavioral by question
position, and the question list is capped at 7. -/
def parseQuestionsClaimed (raw : String) (ids : Nat → String) : List Question :=
  let kept := ((splitNl raw).filter (fun q => pyStrip q != "" && !startsWithHash q)).take 7
  kept.enum.map (fun p =>
    { id := ids p.1, question := pyStrip p.2,
      qtype := if p.1 % 2 = 0 then "technical" else "behavioral",
      topic := "general" })

/-- The amended parsing policy: only the first 7 lines of the split are
considered; each considered line that is non-empty after stripping and
does not start with a heading marker becomes a Question; the category tag
is technical when the line's index in the split is even and behavioral
when it is odd. -/
def parseQuestionsAmended (raw : String) (ids : Nat → String) : List Question :=
  let considered := ((splitNl raw).take 7).enum
  let kept := considered.filter (fun p => pyStrip p.2 != "" && !startsWithHash p.2)
  kept.enum.map (fun q =>
    { id := ids q.1, question := pyStrip q.2.2,
      qtype := if q.2.1 % 2 = 0 then "technical" else "behavioral",
      topic := "general" })

/-- The non-identity data of a question: text, category tag, topic. -/
def questionData (q : Question) : String × String × String :=
  (q.question, q.qtype, q.topic)

/-- Database states reachable by sequential application of the API
operations, starting from a state with no interviews (users and resumes
arbitrary).  The `start` step assumes the freshly drawn interview uuid
does not collide with an existing one, as `uuid.uuid4()` guarantees in
practice. -/
inductive Reachable : DB → Prop
  | init (users : List UserDoc) (resumes : List ResumeDoc) :
      Reachable { users := users, resumes := resumes, interviews := [] }
  | upload {db db' : DB} {u fn content rid : String} {now : Nat} {out : String}
      (hr : Reachable db)
      (hok : upload_resume db u fn content rid now = Except.ok (db', out)) :
      Reachable db'
  | start {db db' : DB} {u jr el it : String} {llm : Option String}
      {ids : Nat → String} {iid : String} {now : Nat} {out : StartResult}
      (hr : Reachable db)
      (hfresh : iid ∉ db.interviews.map Interview.id)
      (hok : start_interview db u jr el it llm ids iid now = Except.ok (db', out)) :
      Reachable db'
  | submit {db db' : DB} {u qid ans : String} {llm : Option String}
      {t₁ t₂ : Nat} {res : SubmitResult}
      (hr : Reachable db)
      (hok : submit_response db u qid ans llm t₁ t₂ = Except.ok (db', res)) :
      Reachable db'

/-- Well-formedness of a single interview document. -/
def InterviewWF (iv : Interview) : Prop :=
  (iv.status = "in_progress" ∨ iv.status = "completed") ∧
  (iv.status = "in_progress" → iv.responses.length < iv.questions.length ∧ iv.feedback = none) ∧
  (iv.status = "completed" → iv.responses.length = iv.questions.length ∧ iv.feedback ≠ none)

/-- Database invariant: interview ids are pairwise distinct and every
interview document is well-formed. -/
def DBInv (db : DB) : Prop :=
  (db.interviews.map Interview.id).Nodup ∧ ∀ iv ∈ db.interviews, InterviewWF iv

/-- A concrete uuid supply for witnesses. -/
def ids0 : Nat → String := fun n => toString n

/-- A concrete resume document for witnesses. -/
def resume0 : ResumeDoc :=
  { id := "r1", user_id := "u1", filename := "cv.pdf", text_content := "resume text",
    uploaded_at := 0 }

/-- Witness state: one resume, no interviews. -/
def db0 : DB := { users := [], resumes := [resume0], interviews := [] }

/-- The interview created from `db0` by `start_interview` with an
unavailable LLM (its questions are the three error-fallback questions). -/
def iv0 : Interview :=
  newInterview "i1" "u1" "Dev" "mid" "text" (fallbackQuestionsError "Dev" ids0) 1

/-- Witness state after starting the interview. -/
def db1 : DB := { users := [], resumes := [resume0], interviews := [iv0] }

/-- First, second and third submitted responses of the witness run; their
question ids do not occur among the interview's question ids. -/
def r1 : Response := { question_id := "g1", answer := "a1", submitted_at := 2 }

/-- Second witness response. -/
def r2 : Response := { question_id := "g2", answer := "a2", submitted_at := 3 }

/-- Third witness response. -/
def r3 : Response := { question_id := "g3", answer := "a3", submitted_at := 4 }

/-- Witness interview after one response. -/
def iv1 : Interview := { iv0 with responses := [r1] }

/-- Witness interview after two responses. -/
def iv2 : Interview := { iv0 with responses := [r1, r2] }

/-- Witness interview after the third response: completed. -/
def iv3 : Interview :=
  { iv0 with
    responses := [r1, r2, r3],
    status := "completed",
    feedback := some fallbackFeedback,
    completed_at := some 6 }

/-- Witness state after one response. -/
def db2 : DB := { users := [], resumes := [resume0], interviews := [iv1] }

/-- Witness state after two responses. -/
def db3 : DB := { users := [], resumes := [resume0], interviews := [iv2] }

/-- Witness state after the completing third response. -/
def db4 : DB := { users := [], resumes := [resume0], interviews := [iv3] }

/-! Helper lemmas about the parsing loop. -/

theorem parseLoop_length_le (ids : Nat → String) (l : List String) (i k : Nat) :
    (parseLoop ids l i k).length ≤ l.length := by
  induction l generalizing i k with
  | nil => simp [parseLoop]
  | cons q rest ih =>
      cases hc : (pyStrip q != "" && !startsWithHash q) with
      | true =>
          simp only [parseLoop, hc, if_true, List.length_cons]
          exact Nat.succ_le_succ (ih (i + 1) (k + 1))
      | false =>
          simp only [parseLoop, hc, if_false, List.length_cons]
          exact Nat.le_succ_of_le (ih (i + 1) k)

theorem parseLoop_eq_enumFrom (ids : Nat → String) (l : List String) (i k : Nat) :
    parseLoop ids l i k =
      (((l.enumFrom i).filter (fun p => pyStrip p.2 != "" && !startsWithHash p.2)).enumFrom k).map
        (fun q =>
          { id := ids q.1, question := pyStrip q.2.2,
            qtype := if q.2.1 % 2 = 0 then "technical" else "behavioral",
            topic := "general" }) := by
  induction l generalizing i k with
  | nil => simp [parseLoop, List.enumFrom]
  | cons q rest ih =>
      cases hc : (pyStrip q != "" && !startsWithHash q) with
      | true =>
          simp only [parseLoop, hc, if_true, List.enumFrom, List.filter_cons, List.map_cons]
          exact congrArg _ (ih (i + 1) (k + 1))
      | false =>
          simp only [parseLoop, hc, if_false, List.enumFrom, List.filter_cons]
          exact ih (i + 1) k

theorem parseQuestions_length_le (raw : String) (ids : Nat → String) :
    (parseQuestions raw ids).length ≤ 7 := by
  have h := parseLoop_length_le ids ((splitNl raw).take 7) 0 0
  have h7 : ((splitNl raw).take 7).length ≤ 7 := by
    rw [List.length_take]
    exact Nat.min_le_left _ _
  exact Nat.le_trans h h7

theorem generate_interview_questions_length (r j e : String) (llm : Option String)
    (ids : Nat → String) :
    3 ≤ (generate_interview_questions r j e llm ids).length ∧
      (generate_interview_questions r j e llm ids).length ≤ 7 := by
  cases llm with
  | none => simp [generate_interview_questions, fallbackQuestionsError]
  | some raw =>
      simp only [generate_interview_questions]
      by_cases h : (parseQuestions raw ids).length < 3
      · simp only [h, if_true]
        simp [fallbackQuestionsParse]
      · simp only [h, if_false]
        exact ⟨Nat.le_of_not_lt h, parseQuestions_length_le raw ids⟩

/-! Helper lemmas about `pickLatest` and `findOneSortedDesc`. -/

theorem pickLatest_of_no_match {p : α → Bool} {key : α → Nat} {l : List α}
    (h : ∀ x ∈ l, p x = false) (best : Option α) :
    pickLatest p key best l = best := by
  induction l generalizing best with
  | nil => rfl
  | cons x xs ih =>
      have hx := h x (List.mem_cons_self x xs)
      simp only [pickLatest, hx]
      simp only [Bool.false_eq_true, if_false]
      exact ih (fun y hy => h y (List.mem_cons_of_mem x hy)) best

theorem pickLatest_some {p : α → Bool} {key : α → Nat} (l : List α) (best : Option α)
    (x : α) (h : pickLatest p key best l = some x) :
    (x ∈ l ∧ p x = true) ∨ best = some x := by
  induction l generalizing best with
  | nil => right; exact h
  | cons a as ih =>
      cases hpa : p a with
      | false =>
          simp only [pickLatest, hpa, Bool.false_eq_true, if_false] at h
          rcases ih best h with ⟨hm, hp⟩ | hb
          · exact Or.inl ⟨List.mem_cons_of_mem a hm, hp⟩
          · exact Or.inr hb
      | true =>
          cases best with
          | none =>
              simp only [pickLatest, hpa, if_true] at h
              rcases ih (some a) h with ⟨hm, hp⟩ | hb
              · exact Or.inl ⟨List.mem_cons_of_mem a hm, hp⟩
              · have : a = x := Option.some.inj hb
                exact Or.inl ⟨this ▸ List.mem_cons_self a as, this ▸ hpa⟩
          | some b =>
              simp only [pickLatest, hpa, if_true] at h
              by_cases hk : key b < key a
              · simp only [hk, if_true] at h
                rcases ih (some a) h with ⟨hm, hp⟩ | hb
                · exact Or.inl ⟨List.mem_cons_of_mem a hm, hp⟩
                · have : a = x := Option.some.inj hb
                  exact Or.inl ⟨this ▸ List.mem_cons_self a as, this ▸ hpa⟩
              · simp only [hk, if_false] at h
                rcases ih (some b) h with ⟨hm, hp⟩ | hb
                · exact Or.inl ⟨List.mem_cons_of_mem a hm, hp⟩
                · exact Or.inr hb

theorem findOneSortedDesc_some_mem {p : α → Bool} {key : α → Nat} {l : List α} {x : α}
    (h : findOneSortedDesc p key l = some x) : x ∈ l ∧ p x = true := by
  rcases pickLatest_some l none x h with h' | h'
  · exact h'
  · cases h'

theorem findOneSortedDesc_none {p : α → Bool} {key : α → Nat} {l : List α}
    (h : ∀ x ∈ l, p x = false) : findOneSortedDesc p key l = none :=
  pickLatest_of_no_match h none

/-! Helper lemmas about `List.find?` and `updateFirst`. -/

theorem find?_decomp {p : α → Bool} {l : List α} {x : α} (h : l.find? p = some x) :
    ∃ l₁ l₂, l = l₁ ++ x :: l₂ ∧ ∀ z ∈ l₁, p z = false := by
  induction l with
  | nil => simp [List.find?] at h
  | cons a as ih =>
      cases hpa : p a with
      | true =>
          rw [List.find?_cons_of_pos _ hpa] at h
          exact ⟨[], as, by rw [Option.some.inj h]; rfl, by simp⟩
      | false =>
          rw [List.find?_cons_of_neg _ (by simp [hpa])] at h
          obtain ⟨l₁, l₂, rfl, hl⟩ := ih h
          refine ⟨a :: l₁, l₂, rfl, ?_⟩
          intro z hz
          rcases List.mem_cons.mp hz with rfl | hz'
          · exact hpa
          · exact hl z hz'

theorem updateFirst_append {p : α → Bool} {f : α → α} {l₁ : List α} {x : α} (l₂ : List α)
    (h₁ : ∀ z ∈ l₁, p z = false) (hx : p x = true) :
    updateFirst p f (l₁ ++ x :: l₂) = l₁ ++ f x :: l₂ := by
  induction l₁ with
  | nil => simp [updateFirst, hx]
  | cons a as ih =>
      have ha := h₁ a (List.mem_cons_self a as)
      simp only [List.cons_append, updateFirst, ha, Bool.false_eq_true, if_false]
      exact congrArg _ (ih (fun z hz => h₁ z (List.mem_cons_of_mem a hz)))

theorem find?_append_first {p : α → Bool} {l₁ : List α} {x : α} (l₂ : List α)
    (h₁ : ∀ z ∈ l₁, p z = false) (hx : p x = true) :
    (l₁ ++ x :: l₂).find? p = some x := by
  induction l₁ with
  | nil => simpa [List.find?] using List.find?_cons_of_pos l₂ hx
  | cons a as ih =>
      have ha := h₁ a (List.mem_cons_self a as)
      rw [List.cons_append, List.find?_cons_of_neg _ (by simp [ha])]
      exact ih (fun z hz => h₁ z (List.mem_cons_of_mem a hz))

theorem find?_id_of_nodup {l : List Interview} (hnd : (l.map Interview.id).Nodup)
    {iv : Interview} (hm : iv ∈ l) :
    l.find? (fun x => x.id == iv.id) = some iv := by
  induction l with
  | nil => cases hm
  | cons a as ih =>
      rw [List.map_cons, List.nodup_cons] at hnd
      rcases List.mem_cons.mp hm with rfl | hm'
      · exact List.find?_cons_of_pos _ (by simp)
      · have hne : (a.id == iv.id) = false := by
          apply beq_eq_false_iff_ne.mpr
          intro hcontra
          exact hnd.1 (hcontra ▸ List.mem_map_of_mem Interview.id hm')
        rw [List.find?_cons_of_neg _ (by simp [hne])]
        exact ih hnd.2 hm'

/-! Inversion lemmas for the operations. -/

theorem upload_resume_ok_interviews {db db' : DB} {u fn content rid : String} {now : Nat}
    {out : String} (h : upload_resume db u fn content rid now = Except.ok (db', out)) :
    db'.interviews = db.interviews := by
  simp only [upload_resume] at h
  split at h
  · cases h
  · rw [← (Prod.mk.injEq _ _ _ _).mp (Except.ok.inj h) |>.1]

theorem start_interview_ok_inv {db db' : DB} {u jr el it : String} {llm : Option String}
    {ids : Nat → String} {iid : String} {now : Nat} {out : StartResult}
    (h : start_interview db u jr el it llm ids iid now = Except.ok (db', out)) :
    ∃ resume,
      findOneSortedDesc (fun r => r.user_id == u) (fun r => r.uploaded_at) db.resumes =
          some resume ∧
      db' = { db with interviews := db.interviews ++
          [newInterview iid u jr el it
            (generate_interview_questions resume.text_content jr el llm ids) now] } ∧
      out = { interview_id := iid,
              questions := generate_interview_questions resume.text_content jr el llm ids,
              total_questions :=
                (generate_interview_questions resume.text_content jr el llm ids).length } := by
  cases hres : findOneSortedDesc (fun r => r.user_id == u) (fun r => r.uploaded_at) db.resumes with
  | none => simp [start_interview, hres] at h
  | some resume =>
      simp only [start_interview, hres] at h
      obtain ⟨h₁, h₂⟩ := (Prod.mk.injEq _ _ _ _).mp (Except.ok.inj h)
      exact ⟨resume, rfl, h₁.symm, h₂.symm⟩

theorem submit_response_ok_found {db db' : DB} {u qid ans : String} {llm : Option String}
    {t₁ t₂ : Nat} {res : SubmitResult}
    (h : submit_response db u qid ans llm t₁ t₂ = Except.ok (db', res)) :
    ∃ iv, findOneSortedDesc (openFor u) (fun x => x.created_at) db.interviews = some iv := by
  cases hf : findOneSortedDesc (openFor u) (fun x => x.created_at) db.interviews with
  | none => simp [submit_response, hf] at h
  | some iv => exact ⟨iv, rfl⟩

/-- Full characterization of a `submit_response` call that found the
in-progress interview `iv`, given the decomposition of the collection at
the first document carrying `iv`'s id. -/
theorem submit_response_spec (db : DB) (u qid ans : String) (llm : Option String)
    (t₁ t₂ : Nat) (iv : Interview) (l₁ l₂ : List Interview)
    (hfind : findOneSortedDesc (openFor u) (fun x => x.created_at) db.interviews = some iv)
    (hdec : db.interviews = l₁ ++ iv :: l₂)
    (hl₁ : ∀ z ∈ l₁, (z.id == iv.id) = false) :
    (iv.questions.length ≤ iv.responses.length + 1 →
      submit_response db u qid ans llm t₁ t₂ =
        Except.ok
          ({ db with interviews := l₁ ++
              { iv with
                responses := iv.responses ++
                  [{ question_id := qid, answer := ans, submitted_at := t₁ }],
                status := "completed",
                feedback := some (generate_feedback iv.questions
                  (iv.responses ++ [{ question_id := qid, answer := ans, submitted_at := t₁ }])
                  iv.job_role llm),
                completed_at := some t₂ } :: l₂ },
            SubmitResult.completed (generate_feedback iv.questions
              (iv.responses ++ [{ question_id := qid, answer := ans, submitted_at := t₁ }])
              iv.job_role llm))) ∧
    (iv.responses.length + 1 < iv.questions.length →
      submit_response db u qid ans llm t₁ t₂ =
        Except.ok
          ({ db with interviews := l₁ ++
              { iv with
                responses := iv.responses ++
                  [{ question_id := qid, answer := ans, submitted_at := t₁ }] } :: l₂ },
            SubmitResult.recorded (iv.responses.length + 1))) := by
  have hself : (iv.id == iv.id) = true := by simp
  have hpushid :
      (({ iv with responses := iv.responses ++
          [{ question_id := qid, answer := ans, submitted_at := t₁ }]} : Interview).id == iv.id)
        = true := by simp
  have hfind' : findOneSortedDesc (openFor u) (fun x => x.created_at) (l₁ ++ iv :: l₂) =
      some iv := by
    rw [← hdec]; exact hfind
  constructor <;> intro hcase
  · simp only [submit_response, hdec, hfind']
    rw [updateFirst_append l₂ hl₁ hself, find?_append_first l₂ hl₁ hpushid]
    simp only [List.length_append, List.length_cons, List.length_nil]
    rw [if_pos hcase, updateFirst_append l₂ hl₁ hpushid]
  · simp only [submit_response, hdec, hfind']
    rw [updateFirst_append l₂ hl₁ hself, find?_append_first l₂ hl₁ hpushid]
    simp only [List.length_append, List.length_cons, List.length_nil]
    rw [if_neg (by omega)]

/-! The reachability invariant. -/

theorem reachable_DBInv {db : DB} (hr : Reachable db) : DBInv db := by
  induction hr with
  | init users resumes => exact ⟨List.nodup_nil, by simp⟩
  | upload hr hok ih =>
      have h := upload_resume_ok_interviews hok
      unfold DBInv at ih ⊢
      rw [h]
      exact ih
  | start hr hfresh hok ih =>
      rename_i db₀ db₁ u jr el it llm ids iid now out
      obtain ⟨resume, hres, hdb', hout⟩ := start_interview_ok_inv hok
      subst hdb'
      constructor
      · simp only [List.map_append, List.map_cons, List.map_nil]
        rw [List.nodup_append]
        refine ⟨ih.1, List.nodup_singleton _, ?_⟩
        intro a ha hb
        have ha' : a = iid := by simpa [newInterview] using List.mem_singleton.mp hb
        exact hfresh (ha' ▸ ha)
      · intro iv hm
        rcases List.mem_append.mp hm with hm' | hm'
        · exact ih.2 iv hm'
        · rw [List.mem_singleton.mp hm']
          refine ⟨Or.inl rfl, fun _ => ⟨?_, rfl⟩,
            fun hc => absurd (show ("in_progress" : String) = "completed" from hc) (by decide)⟩
          have h3 := (generate_interview_questions_length resume.text_content jr el llm ids).1
          simp only [newInterview, List.length_nil]
          omega
  | submit hr hok ih =>
      rename_i db₀ db₁ u qid ans llm t₁ t₂ res
      obtain ⟨iv, hfind⟩ := submit_response_ok_found hok
      obtain ⟨hm, hopen⟩ := findOneSortedDesc_some_mem hfind
      have hopen' : iv.user_id = u ∧ iv.status = "in_progress" := by
        simpa [openFor] using hopen
      have hfirst : db₀.interviews.find? (fun x => x.id == iv.id) = some iv :=
        find?_id_of_nodup ih.1 hm
      obtain ⟨l₁, l₂, hdec, hl₁⟩ := find?_decomp hfirst
      have hWF := ih.2 iv hm
      have hlt : iv.responses.length < iv.questions.length := (hWF.2.1 hopen'.2).1
      have hfb : iv.feedback = none := (hWF.2.1 hopen'.2).2
      have hspec := submit_response_spec db₀ u qid ans llm t₁ t₂ iv l₁ l₂ hfind hdec hl₁
      have hnd := ih.1
      rw [hdec] at hnd
      by_cases hc : iv.questions.length ≤ iv.responses.length + 1
      · have heq := hspec.1 hc
        rw [heq] at hok
        obtain ⟨hdb', _⟩ := (Prod.mk.injEq _ _ _ _).mp (Except.ok.inj hok)
        rw [← hdb']
        constructor
        · simpa only [List.map_append, List.map_cons] using hnd
        · intro y hy
          simp only [List.mem_append, List.mem_cons] at hy
          rcases hy with hy | hy | hy
          · exact ih.2 y (by rw [hdec]; exact List.mem_append_left _ hy)
          · rw [hy]
            refine ⟨Or.inr rfl,
              fun hcc => absurd (show ("completed" : String) = "in_progress" from hcc) (by decide),
              fun _ => ⟨?_, by simp⟩⟩
            simp only [List.length_append, List.length_cons, List.length_nil]
            omega
          · exact ih.2 y (by rw [hdec]; exact List.mem_append_right _ (List.mem_cons_of_mem _ hy))
      · have heq := hspec.2 (by omega)
        rw [heq] at hok
        obtain ⟨hdb', _⟩ := (Prod.mk.injEq _ _ _ _).mp (Except.ok.inj hok)
        rw [← hdb']
        constructor
        · simpa only [List.map_append, List.map_cons] using hnd
        · intro y hy
          simp only [List.mem_append, List.mem_cons] at hy
          rcases hy with hy | hy | hy
          · exact ih.2 y (by rw [hdec]; exact List.mem_append_left _ hy)
          · rw [hy]
            refine ⟨Or.inl hopen'.2, fun _ => ⟨?_, hfb⟩, fun hcc => ?_⟩
            · simp only [List.length_append, List.length_cons, List.length_nil]
              omega
            have h2 : iv.status = "completed" := hcc
            rw [hopen'.2] at h2
            exact absurd h2 (by decide)
          · exact ih.2 y (by rw [hdec]; exact List.mem_append_right _ (List.mem_cons_of_mem _ hy))

/-! Concrete witness run: start an interview from `db0` (LLM unavailable,
so the three fallback questions are used) and submit three responses. -/

theorem start_db0_eq :
    start_interview db0 "u1" "Dev" "mid" "text" none ids0 "i1" 1 =
      Except.ok (db1,
        { interview_id := "i1"
          questions := fallbackQuestionsError "Dev" ids0
          total_questions := 3 }) := by
  rfl

theorem submit_db1_eq :
    submit_response db1 "u1" "g1" "a1" none 2 3 = Except.ok (db2, SubmitResult.recorded 1) := by
  rfl

theorem submit_db2_eq :
    submit_response db2 "u1" "g2" "a2" none 3 4 = Except.ok (db3, SubmitResult.recorded 2) := by
  rfl

theorem submit_db3_eq :
    submit_response db3 "u1" "g3" "a3" none 4 6 =
      Except.ok (db4, SubmitResult.completed fallbackFeedback) := by
  rfl

theorem reachable_db1 : Reachable db1 :=
  Reachable.start (Reachable.init [] [resume0]) (by simp [db0]) start_db0_eq

theorem reachable_db3 : Reachable db3 :=
  Reachable.submit (Reachable.submit reachable_db1 submit_db1_eq) submit_db2_eq

theorem find_open_db3 :
    findOneSortedDesc (openFor "u1") (fun x => x.created_at) db3.interviews = some iv2 := by
  rfl

/-- C2, counterexample: the error fallback of the Question Generator is
not bit-for-bit deterministic — two calls with the same job role (and two
fresh-uuid draws, as `uuid.uuid4()` produces) return different question
lists, because each fallback question carries a freshly drawn id. -/
theorem C2_fallback_not_bitforbit :
    generate_interview_questions "r" "Dev" "mid" none ids0 ≠
      generate_interview_questions "r" "Dev" "mid" none (fun n => ids0 (n + 1)) := by
  decide

/-- C2, amended: when the external call fails, the Question Generator
returns the fixed fallback set whose question texts, category tags and
topics are determined by the job role alone; the list has length 3, and
any two calls with the same job role agree on everything except the
freshly generated identities. -/
theorem C2_fallback_deterministic_modulo_ids (r j e : String) (ids : Nat → String) :
    (generate_interview_questions r j e none ids).map questionData =
      [("Tell me about your experience in " ++ j ++ ".", "technical", "experience"),
       ("Walk me through your most challenging project.", "behavioral", "projects"),
       ("How do you approach problem-solving?", "technical", "problem-solving")] ∧
    (generate_interview_questions r j e none ids).length = 3 ∧
    ∀ (r2 e2 : String) (ids2 : Nat → String),
      (generate_interview_questions r j e none ids).map questionData =
        (generate_interview_questions r2 j e2 none ids2).map questionData :=
  ⟨rfl, rfl, fun _ _ _ => rfl⟩

/-- C3, counterexample: on the raw LLM text "\nA\nB\nC\nD\nE\nF\nG" the
code produces 6 questions whose categories alternate by line index (the
first question "A" is behavioral), not the 7 questions with
by-question-position alternation that the claim's parsing policy
describes. -/
theorem C3_parse_not_by_question_position :
    generate_interview_questions "r" "Dev" "mid" (some "\nA\nB\nC\nD\nE\nF\nG") ids0 ≠
      parseQuestionsClaimed "\nA\nB\nC\nD\nE\nF\nG" ids0 := by
  decide

/-- C3, amended: the parser considers only the first 7 lines of the split
raw text; each considered line that is non-empty after stripping and does
not start with a heading marker becomes a Question whose category tag is
technical when the line's index in the split is even and behavioral when
it is odd, with a fresh identity and the generic topic; when at least 3
questions result, the Question Generator returns exactly this parse. -/
theorem C3_parsing_line_indexed :
    (∀ (raw : String) (ids : Nat → String),
        parseQuestions raw ids = parseQuestionsAmended raw ids) ∧
    (∀ (r j e raw : String) (ids : Nat → String),
        3 ≤ (parseQuestions raw ids).length →
        generate_interview_questions r j e (some raw) ids = parseQuestionsAmended raw ids) := by
  have hmain : ∀ (raw : String) (ids : Nat → String),
      parseQuestions raw ids = parseQuestionsAmended raw ids := by
    intro raw ids
    show parseLoop ids ((splitNl raw).take 7) 0 0 = _
    rw [parseLoop_eq_enumFrom]
    rfl
  refine ⟨hmain, fun r j e raw ids h3 => ?_⟩
  simp only [generate_interview_questions]
  rw [if_neg (by omega)]
  exact hmain raw ids

/-- Witness for C3's amended theorem at a concrete raw text with 6
parsed questions. -/
theorem C3_parsing_line_indexed_witness :
    3 ≤ (parseQuestions "\nA\nB\nC\nD\nE\nF\nG" ids0).length ∧
    generate_interview_questions "r" "Dev" "mid" (some "\nA\nB\nC\nD\nE\nF\nG") ids0 =
      parseQuestionsAmended "\nA\nB\nC\nD\nE\nF\nG" ids0 :=
  ⟨by decide,
   C3_parsing_line_indexed.2 "r" "Dev" "mid" "\nA\nB\nC\nD\nE\nF\nG" ids0 (by decide)⟩

/-- C4: neither generator propagates a failure of the external call.  When
the call raises, the Question Generator returns the three-question
job-role fallback and the Feedback Generator returns the fixed generic
acknowledgment string; both are total functions, so every input yields a
result. -/
theorem C4_generators_never_fail (r j e : String) (ids : Nat → String)
    (qs : List Question) (rs : List Response) (jr : String) :
    generate_interview_questions r j e none ids = fallbackQuestionsError j ids ∧
    (fallbackQuestionsError j ids).length = 3 ∧
    generate_feedback qs rs jr none =
      "Thank you for completing the interview. Your responses have been recorded and our team will review them shortly." :=
  ⟨rfl, rfl, rfl⟩

/-- C10: for every input and every outcome of the external call the
Question Generator returns between 3 and 7 questions and never an empty
list, and every interview created by `start_interview` starts with fewer
responses than questions (so it cannot be complete at creation). -/
theorem C10_question_count_bounds :
    (∀ (r j e : String) (llm : Option String) (ids : Nat → String),
        3 ≤ (generate_interview_questions r j e llm ids).length ∧
        (generate_interview_questions r j e llm ids).length ≤ 7 ∧
        generate_interview_questions r j e llm ids ≠ []) ∧
    (∀ (db : DB) (u jr el it : String) (llm : Option String) (ids : Nat → String)
        (iid : String) (now : Nat) (db' : DB) (out : StartResult),
        start_interview db u jr el it llm ids iid now = Except.ok (db', out) →
        out.questions ≠ [] ∧
        ∃ doc, db'.interviews = db.interviews ++ [doc] ∧
          doc.responses.length < doc.questions.length) := by
  constructor
  · intro r j e llm ids
    obtain ⟨h3, h7⟩ := generate_interview_questions_length r j e llm ids
    refine ⟨h3, h7, fun hnil => ?_⟩
    rw [hnil] at h3
    simp at h3
  · intro db u jr el it llm ids iid now db' out hok
    obtain ⟨resume, hres, hdb', hout⟩ := start_interview_ok_inv hok
    have h3 := (generate_interview_questions_length resume.text_content jr el llm ids).1
    constructor
    · rw [hout]
      intro hnil
      have hq : generate_interview_questions resume.text_content jr el llm ids = [] := hnil
      rw [hq] at h3
      simp at h3
    · refine ⟨_, by rw [hdb'], ?_⟩
      simp only [newInterview, List.length_nil]
      omega

/-- Witness for C10's `start_interview` part at a concrete call. -/
theorem C10_question_count_bounds_witness :
    start_interview db0 "u1" "Dev" "mid" "text" none ids0 "i1" 1 =
      Except.ok (db1,
        { interview_id := "i1"
          questions := fallbackQuestionsError "Dev" ids0
          total_questions := 3 }) ∧
    (({ interview_id := "i1"
        questions := fallbackQuestionsError "Dev" ids0
        total_questions := 3 } : StartResult).questions ≠ [] ∧
      ∃ doc, db1.interviews = db0.interviews ++ [doc] ∧
        doc.responses.length < doc.questions.length) :=
  ⟨start_db0_eq,
   C10_question_count_bounds.2 db0 "u1" "Dev" "mid" "text" none ids0 "i1" 1 db1 _ start_db0_eq⟩

/-- C1: a `submit_response` call that finds an in-progress interview
appends the new response; exactly when the post-append response count
reaches the question count, it returns completed with the feedback
generated from the post-append transcript and stores the feedback, the
completion timestamp, and the status flip in the same updated document;
otherwise it returns not-completed with `next_question` equal to the
post-append response count and only the response is stored. -/
theorem C1_submit_response_completion (db : DB) (hr : Reachable db)
    (u qid ans : String) (llm : Option String) (t₁ t₂ : Nat) (iv : Interview)
    (hfind : findOneSortedDesc (openFor u) (fun x => x.created_at) db.interviews = some iv) :
    (iv.questions.length ≤ iv.responses.length + 1 →
      ∃ db', submit_response db u qid ans llm t₁ t₂ =
          Except.ok (db', SubmitResult.completed (generate_feedback iv.questions
            (iv.responses ++ [{ question_id := qid, answer := ans, submitted_at := t₁ }])
            iv.job_role llm)) ∧
        db'.interviews.find? (fun x => x.id == iv.id) =
          some { iv with
                 responses := iv.responses ++
                   [{ question_id := qid, answer := ans, submitted_at := t₁ }],
                 status := "completed",
                 feedback := some (generate_feedback iv.questions
                   (iv.responses ++ [{ question_id := qid, answer := ans, submitted_at := t₁ }])
                   iv.job_role llm),
                 completed_at := some t₂ }) ∧
    (iv.responses.length + 1 < iv.questions.length →
      ∃ db', submit_response db u qid ans llm t₁ t₂ =
          Except.ok (db', SubmitResult.recorded (iv.responses.length + 1)) ∧
        db'.interviews.find? (fun x => x.id == iv.id) =
          some { iv with responses := iv.responses ++
            [{ question_id := qid, answer := ans, submitted_at := t₁ }] }) := by
  obtain ⟨hm, hopen⟩ := findOneSortedDesc_some_mem hfind
  have hnd := (reachable_DBInv hr).1
  obtain ⟨l₁, l₂, hdec, hl₁⟩ := find?_decomp (find?_id_of_nodup hnd hm)
  have hspec := submit_response_spec db u qid ans llm t₁ t₂ iv l₁ l₂ hfind hdec hl₁
  constructor <;> intro hcase
  · exact ⟨_, hspec.1 hcase, find?_append_first l₂ hl₁ (by simp)⟩
  · exact ⟨_, hspec.2 hcase, find?_append_first l₂ hl₁ (by simp)⟩

/-- Witness for C1 at the concrete completing third submission of the
witness run. -/
theorem C1_submit_response_completion_witness :
    Reachable db3 ∧
    findOneSortedDesc (openFor "u1") (fun x => x.created_at) db3.interviews = some iv2 ∧
    iv2.questions.length ≤ iv2.responses.length + 1 ∧
    (∃ db', submit_response db3 "u1" "g3" "a3" none 4 6 =
        Except.ok (db', SubmitResult.completed (generate_feedback iv2.questions
          (iv2.responses ++ [{ question_id := "g3", answer := "a3", submitted_at := 4 }])
          iv2.job_role none)) ∧
      db'.interviews.find? (fun x => x.id == iv2.id) =
        some { iv2 with
               responses := iv2.responses ++
                 [{ question_id := "g3", answer := "a3", submitted_at := 4 }],
               status := "completed",
               feedback := some (generate_feedback iv2.questions
                 (iv2.responses ++ [{ question_id := "g3", answer := "a3", submitted_at := 4 }])
                 iv2.job_role none),
               completed_at := some 6 }) :=
  ⟨reachable_db3, find_open_db3, by decide,
   (C1_submit_response_completion db3 reachable_db3 "u1" "g3" "a3" none 4 6 iv2
     find_open_db3).1 (by decide)⟩

/-- C9: the supplied `question_id` is stored verbatim in the appended
response — no hypothesis relates it to the interview's question set — and
whether the call completes the interview depends only on the response
count reaching the question count. -/
theorem C9_question_id_unchecked (db : DB) (hr : Reachable db)
    (u qid ans : String) (llm : Option String) (t₁ t₂ : Nat) (iv : Interview)
    (hfind : findOneSortedDesc (openFor u) (fun x => x.created_at) db.interviews = some iv) :
    ∃ db' res stored,
      submit_response db u qid ans llm t₁ t₂ = Except.ok (db', res) ∧
      db'.interviews.find? (fun x => x.id == iv.id) = some stored ∧
      stored.responses = iv.responses ++
        [{ question_id := qid, answer := ans, submitted_at := t₁ }] ∧
      ((∃ fb, res = SubmitResult.completed fb) ↔
        iv.questions.length ≤ iv.responses.length + 1) := by
  obtain ⟨hm, hopen⟩ := findOneSortedDesc_some_mem hfind
  have hnd := (reachable_DBInv hr).1
  obtain ⟨l₁, l₂, hdec, hl₁⟩ := find?_decomp (find?_id_of_nodup hnd hm)
  have hspec := submit_response_spec db u qid ans llm t₁ t₂ iv l₁ l₂ hfind hdec hl₁
  by_cases hc : iv.questions.length ≤ iv.responses.length + 1
  · exact ⟨_, _, _, hspec.1 hc, find?_append_first l₂ hl₁ (by simp), rfl,
      iff_of_true ⟨_, rfl⟩ hc⟩
  · refine ⟨_, _, _, hspec.2 (by omega), find?_append_first l₂ hl₁ (by simp), rfl,
      iff_of_false ?_ hc⟩
    rintro ⟨fb, hfb⟩
    cases hfb

/-- Witness for C9: submitting with the nonexistent question id "ghost"
against the reachable two-response state. -/
theorem C9_question_id_unchecked_witness :
    Reachable db3 ∧
    findOneSortedDesc (openFor "u1") (fun x => x.created_at) db3.interviews = some iv2 ∧
    (∃ db' res stored,
      submit_response db3 "u1" "ghost" "whatever" none 9 10 = Except.ok (db', res) ∧
      db'.interviews.find? (fun x => x.id == iv2.id) = some stored ∧
      stored.responses = iv2.responses ++
        [{ question_id := "ghost", answer := "whatever", submitted_at := 9 }] ∧
      ((∃ fb, res = SubmitResult.completed fb) ↔
        iv2.questions.length ≤ iv2.responses.length + 1)) :=
  ⟨reachable_db3, find_open_db3,
   C9_question_id_unchecked db3 reachable_db3 "u1" "ghost" "whatever" none 9 10 iv2
     find_open_db3⟩

/-- C5: completed is terminal.  The lookup of `submit_response` only ever
matches in-progress interviews of the caller; when the caller has no
in-progress interview the call fails with the no-active-interview error;
and after a completing call on a reachable state in which the caller had
only one open interview, every subsequent submission fails with that
error. -/
theorem C5_completed_terminal :
    (∀ (db : DB) (u : String) (iv : Interview),
        findOneSortedDesc (openFor u) (fun x => x.created_at) db.interviews = some iv →
        iv.status = "in_progress" ∧ iv.user_id = u) ∧
    (∀ (db : DB) (u qid ans : String) (llm : Option String) (t₁ t₂ : Nat),
        (∀ iv ∈ db.interviews, iv.user_id = u → iv.status ≠ "in_progress") →
        submit_response db u qid ans llm t₁ t₂ = Except.error ApiError.noActiveInterview) ∧
    (∀ (db : DB), Reachable db →
      ∀ (u qid ans : String) (llm : Option String) (t₁ t₂ : Nat) (db' : DB) (fb : String),
        (∀ x ∈ db.interviews, ∀ y ∈ db.interviews, x.user_id = u → x.status = "in_progress" →
          y.user_id = u → y.status = "in_progress" → x.id = y.id) →
        submit_response db u qid ans llm t₁ t₂ = Except.ok (db', SubmitResult.completed fb) →
        ∀ (qid2 ans2 : String) (llm2 : Option String) (s₁ s₂ : Nat),
          submit_response db' u qid2 ans2 llm2 s₁ s₂ =
            Except.error ApiError.noActiveInterview) := by
  refine ⟨?_, ?_, ?_⟩
  · intro db u iv hfind
    have h := (findOneSortedDesc_some_mem hfind).2
    have h' : iv.user_id = u ∧ iv.status = "in_progress" := by simpa [openFor] using h
    exact ⟨h'.2, h'.1⟩
  · intro db u qid ans llm t₁ t₂ h
    have hnone : findOneSortedDesc (openFor u) (fun x => x.created_at) db.interviews = none := by
      apply findOneSortedDesc_none
      intro x hx
      unfold openFor
      by_cases hu : x.user_id = u
      · simp [beq_eq_false_iff_ne.mpr (h x hx hu)]
      · simp [beq_eq_false_iff_ne.mpr hu]
    simp [submit_response, hnone]
  · intro db hr u qid ans llm t₁ t₂ db' fb hone hok qid2 ans2 llm2 s₁ s₂
    obtain ⟨iv, hfind⟩ := submit_response_ok_found hok
    obtain ⟨hm, hopen⟩ := findOneSortedDesc_some_mem hfind
    have hopen' : iv.user_id = u ∧ iv.status = "in_progress" := by simpa [openFor] using hopen
    have hnd := (reachable_DBInv hr).1
    obtain ⟨l₁, l₂, hdec, hl₁⟩ := find?_decomp (find?_id_of_nodup hnd hm)
    have hspec := submit_response_spec db u qid ans llm t₁ t₂ iv l₁ l₂ hfind hdec hl₁
    have hivmem : iv ∈ db.interviews := hm
    have hnd' := hnd
    rw [hdec, List.map_append, List.map_cons] at hnd'
    have hl₂ : iv.id ∉ l₂.map Interview.id :=
      (List.nodup_cons.mp (List.Nodup.of_append_right hnd')).1
    by_cases hc : iv.questions.length ≤ iv.responses.length + 1
    · have heq := hspec.1 hc
      rw [heq] at hok
      obtain ⟨hdb', _⟩ := (Prod.mk.injEq _ _ _ _).mp (Except.ok.inj hok)
      rw [← hdb']
      have hnone : findOneSortedDesc (openFor u) (fun x => x.created_at)
          (l₁ ++ { iv with
                   responses := iv.responses ++
                     [{ question_id := qid, answer := ans, submitted_at := t₁ }],
                   status := "completed",
                   feedback := some (generate_feedback iv.questions
                     (iv.responses ++ [{ question_id := qid, answer := ans, submitted_at := t₁ }])
                     iv.job_role llm),
                   completed_at := some t₂ } :: l₂) = none := by
        apply findOneSortedDesc_none
        intro y hy
        rcases List.mem_append.mp hy with hy' | hy'
        · unfold openFor
          by_cases hyu : y.user_id = u
          · by_cases hys : y.status = "in_progress"
            · exfalso
              have hymem : y ∈ db.interviews := by
                rw [hdec]
                exact List.mem_append_left _ hy'
              have hyid : y.id = iv.id := hone y hymem iv hivmem hyu hys hopen'.1 hopen'.2
              have hfalse := hl₁ y hy'
              rw [hyid] at hfalse
              simp at hfalse
            · simp [beq_eq_false_iff_ne.mpr hys]
          · simp [beq_eq_false_iff_ne.mpr hyu]
        · rcases List.mem_cons.mp hy' with rfl | hy''
          · have hne : (("completed" : String) == "in_progress") = false := by decide
            simp [openFor, hne]
          · unfold openFor
            by_cases hyu : y.user_id = u
            · by_cases hys : y.status = "in_progress"
              · exfalso
                have hymem : y ∈ db.interviews := by
                  rw [hdec]
                  exact List.mem_append_right _ (List.mem_cons_of_mem _ hy'')
                have hyid : y.id = iv.id := hone y hymem iv hivmem hyu hys hopen'.1 hopen'.2
                exact hl₂ (hyid ▸ List.mem_map_of_mem Interview.id hy'')
              · simp [beq_eq_false_iff_ne.mpr hys]
            · simp [beq_eq_false_iff_ne.mpr hyu]
      simp [submit_response, hnone]
    · have heq := hspec.2 (by omega)
      rw [heq] at hok
      have hres := ((Prod.mk.injEq _ _ _ _).mp (Except.ok.inj hok)).2
      cases hres

/-- Witness for C5's terminality at the concrete completing run: after the
third submission completes the only open interview, a fourth submission
fails with the no-active-interview error. -/
theorem C5_completed_terminal_witness :
    Reachable db3 ∧
    (∀ x ∈ db3.interviews, ∀ y ∈ db3.interviews, x.user_id = "u1" →
      x.status = "in_progress" → y.user_id = "u1" → y.status = "in_progress" →
      x.id = y.id) ∧
    submit_response db3 "u1" "g3" "a3" none 4 6 =
      Except.ok (db4, SubmitResult.completed fallbackFeedback) ∧
    submit_response db4 "u1" "late" "answer" none 7 8 =
      Except.error ApiError.noActiveInterview :=
  ⟨reachable_db3, by decide, submit_db3_eq,
   C5_completed_terminal.2.2 db3 reachable_db3 "u1" "g3" "a3" none 4 6 db4 fallbackFeedback
     (by decide) submit_db3_eq "late" "answer" none 7 8⟩

/-- C6: in every reachable state an interview's feedback is non-null
exactly when its status is completed, and `start_interview` creates the
interview with in-progress status, null feedback and no responses. -/
theorem C6_feedback_iff_completed :
    (∀ (db : DB), Reachable db → ∀ iv ∈ db.interviews,
        (iv.feedback ≠ none ↔ iv.status = "completed")) ∧
    (∀ (db : DB) (u jr el it : String) (llm : Option String) (ids : Nat → String)
        (iid : String) (now : Nat) (db' : DB) (out : StartResult),
        start_interview db u jr el it llm ids iid now = Except.ok (db', out) →
        ∃ doc, db'.interviews = db.interviews ++ [doc] ∧
          doc.status = "in_progress" ∧ doc.feedback = none ∧ doc.responses = []) := by
  constructor
  · intro db hr iv hm
    have hWF := (reachable_DBInv hr).2 iv hm
    constructor
    · intro hfb
      rcases hWF.1 with hs | hs
      · exact absurd (hWF.2.1 hs).2 hfb
      · exact hs
    · intro hs
      exact (hWF.2.2 hs).2
  · intro db u jr el it llm ids iid now db' out hok
    obtain ⟨resume, hres, hdb', hout⟩ := start_interview_ok_inv hok
    exact ⟨_, by rw [hdb'], rfl, rfl, rfl⟩

/-- Witness for C6 at the reachable one-interview state and at the
concrete `start_interview` call that produced it. -/
theorem C6_feedback_iff_completed_witness :
    (Reachable db1 ∧ iv0 ∈ db1.interviews ∧
      (iv0.feedback ≠ none ↔ iv0.status = "completed")) ∧
    (start_interview db0 "u1" "Dev" "mid" "text" none ids0 "i1" 1 =
        Except.ok (db1,
          { interview_id := "i1"
            questions := fallbackQuestionsError "Dev" ids0
            total_questions := 3 }) ∧
      ∃ doc, db1.interviews = db0.interviews ++ [doc] ∧
        doc.status = "in_progress" ∧ doc.feedback = none ∧ doc.responses = []) :=
  ⟨⟨reachable_db1, List.mem_cons_self iv0 [],
    C6_feedback_iff_completed.1 db1 reachable_db1 iv0 (List.mem_cons_self iv0 [])⟩,
   ⟨start_db0_eq,
    C6_feedback_iff_completed.2 db0 "u1" "Dev" "mid" "text" none ids0 "i1" 1 db1 _
      start_db0_eq⟩⟩

/-- C7: in every reachable state every interview satisfies
`len(responses) <= len(questions)`, and its status is completed exactly
when the response count equals the question count — reaching equality is
the sole completion trigger. -/
theorem C7_response_bound_and_completion_trigger :
    ∀ (db : DB), Reachable db → ∀ iv ∈ db.interviews,
      iv.responses.length ≤ iv.questions.length ∧
      (iv.status = "completed" ↔ iv.responses.length = iv.questions.length) := by
  intro db hr iv hm
  have hWF := (reachable_DBInv hr).2 iv hm
  rcases hWF.1 with hs | hs
  · have h1 := hWF.2.1 hs
    exact ⟨Nat.le_of_lt h1.1,
      iff_of_false (fun hc => absurd (hs ▸ hc) (by simp)) (by omega)⟩
  · have h2 := hWF.2.2 hs
    exact ⟨Nat.le_of_eq h2.1, iff_of_true hs h2.1⟩

/-- Witness for C7 at the reachable two-response state. -/
theorem C7_response_bound_and_completion_trigger_witness :
    Reachable db3 ∧ iv2 ∈ db3.interviews ∧
    (iv2.responses.length ≤ iv2.questions.length ∧
      (iv2.status = "completed" ↔ iv2.responses.length = iv2.questions.length)) :=
  ⟨reachable_db3, List.mem_cons_self iv2 [],
   C7_response_bound_and_completion_trigger db3 reachable_db3 iv2
     (List.mem_cons_self iv2 [])⟩

/-- C8: a successful registration issues a token whose subject claim is
the newly created user identity, so the Authentication Gate resolves the
token to exactly that identity, assuming the token codec primitives
invert each other. -/
theorem C8_register_token_roundtrip {τ : Type} (enc : TokenPayload → τ)
    (dec : τ → Option TokenPayload) (hinv : ∀ p, dec (enc p) = some p)
    (db : DB) (email password name new_id hashed : String) (now : Nat)
    (db' : DB) (token : τ) (uid : String)
    (hok : register db email password name new_id hashed now enc =
      Except.ok (db', token, uid)) :
    get_current_user dec token = Except.ok uid ∧ uid = new_id := by
  simp only [register] at hok
  split at hok
  · cases hok
  · obtain ⟨h1, h2⟩ := (Prod.mk.injEq _ _ _ _).mp (Except.ok.inj hok)
    obtain ⟨ht, hu⟩ := (Prod.mk.injEq _ _ _ _).mp h2
    rw [← ht, ← hu]
    exact ⟨by simp [get_current_user, create_access_token, hinv], rfl⟩

/-- Witness for C8 with the identity codec on the payload type. -/
theorem C8_register_token_roundtrip_witness :
    (∀ p : TokenPayload, (fun x => some x) ((fun (p : TokenPayload) => p) p) = some p) ∧
    register db0 "a@b.c" "pw" "Alice" "uid1" "hash1" 0 (fun (p : TokenPayload) => p) =
      Except.ok
        ({ db0 with users :=
            [{ id := "uid1"
               email := "a@b.c"
               name := "Alice"
               password := "hash1"
               created_at := 0 }] },
          ({ sub := some "uid1", exp := 1440 } : TokenPayload), "uid1") ∧
    (get_current_user (fun x => some x) ({ sub := some "uid1", exp := 1440 } : TokenPayload) =
        Except.ok "uid1" ∧ ("uid1" : String) = "uid1") :=
  ⟨fun _ => rfl, rfl,
   C8_register_token_roundtrip (fun p => p) (fun x => some x) (fun _ => rfl)
     db0 "a@b.c" "pw" "Alice" "uid1" "hash1" 0 _ _ _ rfl⟩

end AIInterview
